import Mathlib

/-
Verification development for the chat subsystem of the buzzaz backend
(src/routes/chat.js): the content filter applied to chat messages, the
conversation get-or-create operation, message sending and message listing.

The JavaScript code is shallowly embedded: strings are Lean String values,
JavaScript regular-expression replacement is modelled by a small backtracking
matcher specialised to the constructs that occur in the four patterns of
filterSensitiveContent (character classes, literal characters, bounded greedy
repetition over a character class, alternation, optional groups and the word
boundary assertion), with the ECMAScript preference order: alternatives are
tried left to right and quantifiers are greedy, the overall match at a
position being the first success in that order, and global replacement scans
positions left to right, never overlapping matches.
-/

set_option maxHeartbeats 1000000

deriving instance DecidableEq for Except

namespace Buzzaz

/-! ## Character classes of the four regular expressions in chat.js -/

/-- ECMAScript word character, the backslash-w class: [A-Za-z0-9_]. -/
def isWordCh (c : Char) : Bool :=
  ('A' ≤ c && c ≤ 'Z') || ('a' ≤ c && c ≤ 'z') || ('0' ≤ c && c ≤ '9') || c == '_'

/-- ASCII decimal digit, the backslash-d class. -/
def isDigitCh (c : Char) : Bool := '0' ≤ c && c ≤ '9'

/-- ASCII letter. -/
def isAsciiAlpha (c : Char) : Bool := ('A' ≤ c && c ≤ 'Z') || ('a' ≤ c && c ≤ 'z')

/-- ECMAScript whitespace, the backslash-s class (WhiteSpace plus
LineTerminator code points). -/
def isJsSpace (c : Char) : Bool :=
  c == ' ' || c == '\t' || c == '\n' || c == '\x0b' || c == '\x0c' || c == '\r' ||
  c == '\u00A0' || c == '\u1680' || ('\u2000' ≤ c && c ≤ '\u200A') ||
  c == '\u2028' || c == '\u2029' || c == '\u202F' || c == '\u205F' ||
  c == '\u3000' || c == '\uFEFF'

/-- Class [A-Za-z0-9._%+-] of the email pattern local part. -/
def emailLocalClass (c : Char) : Bool :=
  isAsciiAlpha c || isDigitCh c || c == '.' || c == '_' || c == '%' || c == '+' || c == '-'

/-- Class [A-Za-z0-9.-] of the email pattern domain part. -/
def emailDomainClass (c : Char) : Bool :=
  isAsciiAlpha c || isDigitCh c || c == '.' || c == '-'

/-- Class [A-Z|a-z] of the email pattern top-level-domain part; note that the
class in the source literally contains the bar character. -/
def emailTldClass (c : Char) : Bool := isAsciiAlpha c || c == '|'

/-- Class [-.\s] used as separator in the phone pattern. -/
def phoneSepClass (c : Char) : Bool := c == '-' || c == '.' || isJsSpace c

/-- Class [a-zA-Z0-9._] of the social-handle pattern. -/
def socialHandleClass (c : Char) : Bool :=
  isAsciiAlpha c || isDigitCh c || c == '.' || c == '_'

/-! ## A small regular-expression matcher with ECMAScript semantics -/

/-- Abstract syntax of the regular-expression fragment used by
filterSensitiveContent in src/routes/chat.js. -/
inductive RE where
  | eps : RE
  | chr : Char → RE
  | cls : (Char → Bool) → RE
  | wb : RE
  | seq : RE → RE → RE
  | alt : RE → RE → RE
  | reps : Nat → Option Nat → (Char → Bool) → RE

/-- Greedy optional group, the question-mark quantifier. -/
def opt (r : RE) : RE := .alt r .eps

/-- Word-character test on an optional character (start or end of input is
not a word character). -/
def isWordOpt : Option Char → Bool
  | none => false
  | some c => isWordCh c

/-- ECMAScript word boundary between a previous and a next character. -/
def atBoundary (prev next : Option Char) : Bool := isWordOpt prev != isWordOpt next

/-- The character preceding the position reached after consuming n characters
of s, where prev precedes s itself. -/
def prevAfter (prev : Option Char) (s : List Char) : Nat → Option Char
  | 0 => prev
  | n + 1 => (s.drop n).head?

/-- The list [m, m-1, ..., lo] (empty when m < lo): the greedy preference
order for the number of repetitions of a quantifier. -/
def descRange (m lo : Nat) : List Nat := (List.range' lo (m + 1 - lo)).reverse

/-- All lengths of matches of r against a prefix of s (the character before s
being prev), in ECMAScript backtracking preference order: the first element
is the length the JavaScript engine chooses at this position. -/
def run : RE → Option Char → List Char → List Nat
  | .eps, _, _ => [0]
  | .chr c, _, s =>
    match s with
    | [] => []
    | d :: _ => if d == c then [1] else []
  | .cls p, _, s =>
    match s with
    | [] => []
    | d :: _ => if p d then [1] else []
  | .wb, prev, s => if atBoundary prev s.head? then [0] else []
  | .seq a b, prev, s =>
    (run a prev s).flatMap (fun n => (run b (prevAfter prev s n) (s.drop n)).map (fun m => n + m))
  | .alt a b, prev, s => run a prev s ++ run b prev s
  | .reps lo hi p, _, s =>
    let free := (s.takeWhile p).length
    let m := match hi with
      | none => free
      | some h => min free h
    descRange m lo

/-- Length of the match the JavaScript engine produces at the current
position, if any. -/
def matchAt (r : RE) (prev : Option Char) (s : List Char) : Option Nat :=
  (run r prev s).head?

/-- The replacement text: five asterisks. -/
def maskChars : List Char := ['*', '*', '*', '*', '*']

/-- One pass of global replacement (String.prototype.replace with the g
flag): scan positions left to right; at a position with a (necessarily
nonempty, for the four patterns used) match, emit the mask and continue after
the match; otherwise keep the character. Fuel bounds the recursion; an amount
equal to the length of the input always suffices. -/
def scanFuel : Nat → RE → Option Char → List Char → List Char
  | 0, _, _, s => s
  | fuel + 1, r, prev, s =>
    match s with
    | [] => []
    | c :: rest =>
      match matchAt r prev (c :: rest) with
      | some (n + 1) =>
        maskChars ++ scanFuel fuel r (prevAfter prev (c :: rest) (n + 1)) (rest.drop n)
      | _ => c :: scanFuel fuel r (some c) rest

/-- Global replacement of every match of r in s by the mask. -/
def jsReplaceAll (r : RE) (s : List Char) : List Char := scanFuel s.length r none s

/-! ## The four patterns of filterSensitiveContent -/

/-- Pattern of emailRegex in chat.js. -/
def emailRE : RE :=
  .seq .wb (.seq (.reps 1 none emailLocalClass)
    (.seq (.chr '@') (.seq (.reps 1 none emailDomainClass)
      (.seq (.chr '.') (.seq (.reps 2 none emailTldClass) .wb)))))

/-- Pattern of phoneRegex in chat.js. -/
def phoneRE : RE :=
  .seq (opt (.seq (opt (.chr '+')) (.seq (.reps 1 (some 4) isDigitCh) (opt (.cls phoneSepClass)))))
    (.seq (opt (.chr '(')) (.seq (.reps 1 (some 4) isDigitCh)
      (.seq (opt (.chr ')')) (.seq (opt (.cls phoneSepClass))
        (.seq (.reps 1 (some 4) isDigitCh)
          (.seq (opt (.cls phoneSepClass)) (.reps 1 (some 9) isDigitCh)))))))

/-- Case-insensitive match of a single (lowercase) pattern character, the
canonicalisation performed by the i flag restricted to ASCII. -/
def ciChr (c : Char) : RE := .cls (fun d => d.toLower == c)

/-- Case-insensitive literal word. -/
def litCI : List Char → RE
  | [] => .eps
  | c :: cs => .seq (ciChr c) (litCI cs)

/-- Pattern of whatsappRegex in chat.js (case-insensitive alternation). -/
def whatsappRE : RE :=
  .alt (litCI "whatsapp".data)
    (.alt (litCI "wa.me".data) (.alt (litCI "t.me".data) (litCI "telegram".data)))

/-- Pattern of socialRegex in chat.js. -/
def socialRE : RE := .seq (.chr '@') (.reps 1 none socialHandleClass)

/-- The content filter of chat.js: the four global replacements applied in
source order (emails, phone numbers, messaging-app references, handles). -/
def filterSensitiveContent (message : String) : String :=
  let filtered1 := jsReplaceAll emailRE message.data
  let filtered2 := jsReplaceAll phoneRE filtered1
  let filtered3 := jsReplaceAll whatsappRE filtered2
  let filtered4 := jsReplaceAll socialRE filtered3
  ⟨filtered4⟩

/-- Model of String.prototype.trim: remove ECMAScript whitespace and line
terminators from both ends. -/
def jsTrim (s : String) : String :=
  ⟨((s.data.dropWhile isJsSpace).reverse.dropWhile isJsSpace).reverse⟩

/-! ## Data model of the conversation service (src/routes/chat.js, db/schema) -/

/-- Strict comparison of two strings as JavaScript compares them (the default
sort comparator): lexicographic on the code units; for the identifiers in
this system (code points below 0x10000) this coincides with lexicographic
comparison of the characters. -/
def jsLtb : List Char → List Char → Bool
  | [], [] => false
  | [], _ :: _ => true
  | _ :: _, [] => false
  | c :: cs, d :: ds => if c = d then jsLtb cs ds else c < d

/-- Derivation of the conversation identifier in the POST /conversations
handler: [currentUserId, participantId].sort().join(UNDERSCORE). A stable
two-element sort keeps the pair unless the second element is strictly
smaller. -/
def conversationIdOf (currentUserId participantId : String) : String :=
  if jsLtb participantId.data currentUserId.data
  then participantId ++ "_" ++ currentUserId
  else currentUserId ++ "_" ++ participantId

/-- Model of the JavaScript expression a || b for a nullable string a: the
empty string and a missing value are falsy. -/
def jsFalsyOr (a : Option String) (b : String) : String :=
  match a with
  | none => b
  | some s => if s = "" then b else s

/-- A row of the users table (the directory): uid, email, role,
display_name. -/
structure DirUser where
  uid : String
  email : String
  role : String
  displayName : Option String
deriving DecidableEq

/-- The authenticated requester (req.user): uid, email, role and fullName
from the verified token. -/
structure AuthUser where
  uid : String
  email : String
  role : String
  fullName : Option String
deriving DecidableEq

/-- One entry of the participantDetails snapshot: name and role at creation
time. -/
structure ParticipantDetail where
  name : String
  role : String
deriving DecidableEq

/-- A row of the conversations table. Timestamps are clock readings modelled
as natural numbers. -/
structure Conversation where
  id : String
  participants : List String
  participantDetails : List (String × ParticipantDetail)
  lastMessage : Option String
  lastMessageTime : Option Nat
  lastMessageSender : Option String
  createdAt : Nat
  updatedAt : Nat
deriving DecidableEq

/-- A row of the messages table. -/
structure Message where
  id : String
  conversationId : String
  senderId : String
  senderName : String
  message : String
  timestamp : Nat
  isFiltered : Bool
deriving DecidableEq

/-- The persistent state the chat routes act on, plus the current clock
reading supplied by the environment. -/
structure ChatState where
  users : List DirUser
  conversations : List Conversation
  messages : List Message
  now : Nat
deriving DecidableEq

/-- The failure kinds of the chat routes, one per early-return branch:
validationError (HTTP 400, missing or empty input), selfConversation
(HTTP 400, participant equals requester), notFound (HTTP 404), invalidPairing
(HTTP 403 on role validation), forbidden (HTTP 403 on membership). -/
inductive ChatErr where
  | validationError : ChatErr
  | selfConversation : ChatErr
  | notFound : ChatErr
  | invalidPairing : ChatErr
  | forbidden : ChatErr
deriving DecidableEq

/-- The POST /conversations handler: get or create the conversation between
the requester and participantId. Returns the result together with the
(possibly extended) state; every failure leaves the state unchanged. -/
def createOrGetConversation (st : ChatState) (user : AuthUser) (participantId : String) :
    Except ChatErr (String × Conversation) × ChatState :=
  if participantId = "" then (.error .validationError, st)
  else if participantId = user.uid then (.error .selfConversation, st)
  else
    match st.users.find? (fun u => u.uid = participantId) with
    | none => (.error .notFound, st)
    | some participantData =>
      let currentUserRole := user.role
      let participantRole := participantData.role
      let validCombinations : List Bool := [
        currentUserRole = "brand" && ["influencer", "ugc_creator"].contains participantRole,
        ["influencer", "ugc_creator"].contains currentUserRole && participantRole = "brand"]
      if !(validCombinations.any (fun combo => combo)) then (.error .invalidPairing, st)
      else
        let conversationId := conversationIdOf user.uid participantId
        match st.conversations.find? (fun c => c.id = conversationId) with
        | some row => (.ok (conversationId, row), st)
        | none =>
          let conversationData : Conversation := {
            id := conversationId
            participants := [user.uid, participantId]
            participantDetails := [
              (user.uid, { name := jsFalsyOr user.fullName user.email, role := currentUserRole }),
              (participantId, { name := jsFalsyOr participantData.displayName participantData.email,
                                role := participantRole })]
            lastMessage := none
            lastMessageTime := none
            lastMessageSender := none
            createdAt := st.now
            updatedAt := st.now }
          (.ok (conversationId, conversationData),
           { st with conversations := st.conversations ++ [conversationData] })

/-- The POST /conversations/:conversationId/messages handler. The msgId
argument stands for the generated identifier msg_(now)_(random suffix); no
claim depends on its value. Every failure leaves the state unchanged. -/
def sendMessage (st : ChatState) (user : AuthUser) (conversationId : String)
    (message : String) (msgId : String) : Except ChatErr Message × ChatState :=
  if message = "" || (jsTrim message).length = 0 then (.error .validationError, st)
  else
    match st.conversations.find? (fun c => c.id = conversationId) with
    | none => (.error .notFound, st)
    | some conversationData =>
      if !(conversationData.participants.contains user.uid) then (.error .forbidden, st)
      else
        let filteredMessage := filterSensitiveContent (jsTrim message)
        let messageData : Message := {
          id := msgId
          conversationId := conversationId
          senderId := user.uid
          senderName := jsFalsyOr user.fullName user.email
          message := filteredMessage
          timestamp := st.now
          isFiltered := filteredMessage != jsTrim message }
        (.ok messageData,
         { st with
           messages := st.messages ++ [messageData]
           conversations := st.conversations.map (fun c =>
             if c.id = conversationId then
               { c with
                 lastMessage := some filteredMessage
                 lastMessageTime := some st.now
                 lastMessageSender := some user.uid
                 updatedAt := st.now }
             else c) })

/-- Insertion into a list kept in descending timestamp order. -/
def insertDescByTime (m : Message) : List Message → List Message
  | [] => [m]
  | x :: xs => if x.timestamp ≤ m.timestamp then m :: x :: xs else x :: insertDescByTime m xs

/-- Model of the SQL ORDER BY timestamp DESC over the selected message
rows. -/
def sortDescByTime (l : List Message) : List Message := l.foldr insertDescByTime []

/-- The GET /conversations/:conversationId/messages handler: select the
rows of the conversation newest first, apply LIMIT, then reverse before
returning. The page query parameter is accepted but never used by the
handler. -/
def listMessages (st : ChatState) (user : AuthUser) (conversationId : String)
    (page limit : Nat) : Except ChatErr (List Message × Conversation) :=
  match st.conversations.find? (fun c => c.id = conversationId) with
  | none => .error .notFound
  | some conversationRow =>
    if !(conversationRow.participants.contains user.uid) then .error .forbidden
    else
      let rows := (sortDescByTime (st.messages.filter
        (fun m => m.conversationId = conversationId))).take limit
      let _ := page
      .ok (rows.reverse, conversationRow)

/-! ## Substring occurrence testers -/

/-- Whether the first list is an initial segment of the second. -/
def startsL : List Char → List Char → Bool
  | [], _ => true
  | _ :: _, [] => false
  | a :: as2, b :: bs => a == b && startsL as2 bs

/-- Whether the first list occurs contiguously inside the second. -/
def containsL (p : List Char) : List Char → Bool
  | [] => startsL p []
  | c :: cs => startsL p (c :: cs) || containsL p cs

/-- Whether needle occurs as a contiguous substring of hay. -/
def containsStr (needle hay : String) : Bool := containsL needle.data hay.data

/-- Whether the text begins with the (lowercase) pattern, compared case
insensitively. -/
def ciStarts : List Char → List Char → Bool
  | [], _ => true
  | _ :: _, [] => false
  | pc :: ps, c :: cs => c.toLower == pc && ciStarts ps cs

/-- Whether the (lowercase) pattern occurs contiguously inside the text,
compared case insensitively. -/
def containsCIL (p : List Char) : List Char → Bool
  | [] => ciStarts p []
  | c :: cs => ciStarts p (c :: cs) || containsCIL p cs

/-- Case-insensitive substring occurrence on strings. -/
def containsCI (pat s : String) : Bool := containsCIL pat.data s.data

/-- The four literal alternatives of whatsappRegex. -/
def waKeywordChars : List (List Char) :=
  ["whatsapp".data, "wa.me".data, "t.me".data, "telegram".data]

/-! ## Concrete fixtures used by witnesses and counterexamples -/

/-- A brand requester. -/
def userAlice : AuthUser := { uid := "alice", email := "alice@brand.example", role := "brand", fullName := none }

/-- An influencer requester who is not a participant of the fixture
conversation. -/
def userEve : AuthUser := { uid := "eve", email := "eve@creator.example", role := "influencer", fullName := none }

/-- A requester whose uid is the empty string. -/
def userEmptyUid : AuthUser := { uid := "", email := "empty@x.example", role := "brand", fullName := none }

/-- Directory row of an influencer. -/
def dirBob : DirUser := { uid := "bob", email := "bob@creator.example", role := "influencer", displayName := some "Bob" }

/-- Directory row of the same user after a role change to brand. -/
def dirBobAsBrand : DirUser := { uid := "bob", email := "bob@creator.example", role := "brand", displayName := some "Bob" }

/-- A state holding only the directory row of bob. -/
def stDir : ChatState := { users := [dirBob], conversations := [], messages := [], now := 7 }

/-- The conversation the first createOrGetConversation call on stDir
creates. -/
def convAliceBob : Conversation := {
  id := "alice_bob"
  participants := ["alice", "bob"]
  participantDetails := [
    ("alice", { name := "alice@brand.example", role := "brand" }),
    ("bob", { name := "Bob", role := "influencer" })]
  lastMessage := none
  lastMessageTime := none
  lastMessageSender := none
  createdAt := 7
  updatedAt := 7 }

/-- stDir after the first createOrGetConversation call. -/
def stDirAfter : ChatState := { users := [dirBob], conversations := [convAliceBob], messages := [], now := 7 }

/-- stDirAfter with the directory row of bob changed to role brand; the
conversation record is untouched. -/
def stMutated : ChatState := { users := [dirBobAsBrand], conversations := [convAliceBob], messages := [], now := 7 }

/-- A state with the alice-bob conversation present, clock at 9. -/
def stWithConv : ChatState := { users := [dirBob], conversations := [convAliceBob], messages := [], now := 9 }

/-- An empty state with clock 0. -/
def stEmpty : ChatState := { users := [], conversations := [], messages := [], now := 0 }

/-- A stored message with timestamp 5 (inserted first). -/
def msgEarlier : Message := {
  id := "m1", conversationId := "alice_bob", senderId := "alice",
  senderName := "alice@brand.example", message := "first", timestamp := 5, isFiltered := false }

/-- A stored message with timestamp 3 (inserted second, so the store order
disagrees with chronological order). -/
def msgLater : Message := {
  id := "m2", conversationId := "alice_bob", senderId := "bob",
  senderName := "Bob", message := "second", timestamp := 3, isFiltered := false }

/-- A state whose message store is not in chronological order. -/
def stMsgs : ChatState := { users := [dirBob], conversations := [convAliceBob], messages := [msgEarlier, msgLater], now := 9 }

/-- The message created by sending "hello" in stWithConv. -/
def msgHello : Message := {
  id := "m1", conversationId := "alice_bob", senderId := "alice",
  senderName := "alice@brand.example", message := "hello", timestamp := 9, isFiltered := false }

/-- The conversation record after that send. -/
def convAliceBobHello : Conversation := {
  id := "alice_bob"
  participants := ["alice", "bob"]
  participantDetails := [
    ("alice", { name := "alice@brand.example", role := "brand" }),
    ("bob", { name := "Bob", role := "influencer" })]
  lastMessage := some "hello"
  lastMessageTime := some 9
  lastMessageSender := some "alice"
  createdAt := 7
  updatedAt := 9 }

/-- stWithConv after that send. -/
def stAfterHello : ChatState := { users := [dirBob], conversations := [convAliceBobHello], messages := [msgHello], now := 9 }


/-! ## Order facts about the JavaScript string comparison -/

theorem jsLtb_asymm : ∀ x y : List Char, jsLtb x y = true → jsLtb y x = true → False := by
  intro x
  induction x with
  | nil =>
    intro y h1 h2
    cases y with
    | nil => simp [jsLtb] at h1
    | cons d ds => simp [jsLtb] at h2
  | cons c cs ih =>
    intro y h1 h2
    cases y with
    | nil => simp [jsLtb] at h1
    | cons d ds =>
      by_cases hcd : c = d
      · subst hcd
        simp [jsLtb] at h1 h2
        exact ih ds h1 h2
      · have hdc : ¬ d = c := fun h => hcd h.symm
        simp [jsLtb, hcd, hdc] at h1 h2
        exact absurd h2 (lt_asymm h1)

theorem jsLtb_eq_of_not_lt : ∀ x y : List Char, jsLtb x y = false → jsLtb y x = false → x = y := by
  intro x
  induction x with
  | nil =>
    intro y h1 h2
    cases y with
    | nil => rfl
    | cons d ds => simp [jsLtb] at h1
  | cons c cs ih =>
    intro y h1 h2
    cases y with
    | nil => simp [jsLtb] at h2
    | cons d ds =>
      by_cases hcd : c = d
      · subst hcd
        simp [jsLtb] at h1 h2
        rw [ih ds h1 h2]
      · have hdc : ¬ d = c := fun h => hcd h.symm
        simp [jsLtb, hcd, hdc] at h1 h2
        exact absurd (le_antisymm h2 h1) hcd

theorem string_data_inj : ∀ {a b : String}, a.data = b.data → a = b := by
  intro a b h
  cases a
  cases b
  exact congrArg String.mk h

/-- Claim C4: for every pair of distinct user identifiers A and B,
createOrGetConversation(A,B) and createOrGetConversation(B,A) derive the same
conversation identifier, obtained by sorting the two identifiers and joining
them with the underscore separator: conversationIdOf is symmetric, and every
successful createOrGetConversation call returns exactly that identifier. -/
theorem c4_conversation_id_order_independent :
    (∀ a b : String, a ≠ b → conversationIdOf a b = conversationIdOf b a) ∧
    (∀ (st : ChatState) (user : AuthUser) (participantId : String)
        (r : String × Conversation) (st2 : ChatState),
      createOrGetConversation st user participantId = (.ok r, st2) →
      r.1 = conversationIdOf user.uid participantId) := by
  constructor
  · intro a b hab
    cases h1 : jsLtb b.data a.data with
    | false =>
      cases h2 : jsLtb a.data b.data with
      | false => exact absurd (string_data_inj (jsLtb_eq_of_not_lt _ _ h2 h1)) hab
      | true => simp [conversationIdOf, h1, h2]
    | true =>
      cases h2 : jsLtb a.data b.data with
      | false => simp [conversationIdOf, h1, h2]
      | true => exact (jsLtb_asymm _ _ h1 h2).elim
  · intro st user participantId r st2 h
    unfold createOrGetConversation at h
    split at h
    · simp at h
    · split at h
      · simp at h
      · split at h
        · simp at h
        · dsimp only at h
          split at h
          · simp at h
          · split at h
            · simp only [Prod.mk.injEq, Except.ok.injEq] at h
              rw [← h.1]
            · simp only [Prod.mk.injEq, Except.ok.injEq] at h
              rw [← h.1]

theorem c4_conversation_id_order_independent_witness :
    ("alice" : String) ≠ "bob" ∧
    conversationIdOf "alice" "bob" = conversationIdOf "bob" "alice" ∧
    (createOrGetConversation stDir userAlice "bob" = (.ok (("alice_bob", convAliceBob)), stDirAfter) →
      ("alice_bob", convAliceBob).1 = conversationIdOf userAlice.uid "bob") :=
  ⟨by decide, c4_conversation_id_order_independent.1 "alice" "bob" (by decide),
    fun h => c4_conversation_id_order_independent.2 stDir userAlice "bob" ("alice_bob", convAliceBob) stDirAfter h⟩

/-- Claim C7: the content filter maps "reach me at test@example.com" to a
text with no occurrence of the substring "@example.com" and reports it
filtered, replaces "telegram" in "find me on telegram", and leaves
"great collab idea!" unchanged (so isFiltered, which is derived as
inequality with the input, is false there). -/
theorem c7_content_filter_concrete_cases :
    containsStr "@example.com" (filterSensitiveContent "reach me at test@example.com") = false ∧
    filterSensitiveContent "reach me at test@example.com" ≠ "reach me at test@example.com" ∧
    filterSensitiveContent "find me on telegram" = "find me on *****" ∧
    filterSensitiveContent "find me on telegram" ≠ "find me on telegram" ∧
    filterSensitiveContent "great collab idea!" = "great collab idea!" := by decide

/-- Claim C8 (counterexample): with the empty string as identifier, the call
createOrGetConversation(A,A) fails with the validationError kind produced by
the participant-presence check (the empty string is falsy in JavaScript),
not with the selfConversation kind the claim requires; no conversation is
created. -/
theorem c8_counterexample_empty_identifier :
    createOrGetConversation stEmpty userEmptyUid "" = (.error .validationError, stEmpty) ∧
    ChatErr.validationError ≠ ChatErr.selfConversation := by decide

/-- Claim C8 (amended): for every user identifier A other than the empty
string, createOrGetConversation(A,A) fails with the selfConversation kind
and creates no conversation (the state is returned unchanged); for the empty
identifier the call fails with validationError, likewise creating nothing. -/
theorem c8_amended_self_conversation :
    ∀ (st : ChatState) (user : AuthUser), user.uid ≠ "" →
      createOrGetConversation st user user.uid = (.error .selfConversation, st) := by
  intro st user h
  unfold createOrGetConversation
  rw [if_neg h, if_pos rfl]

theorem c8_amended_self_conversation_witness :
    userAlice.uid ≠ "" ∧
    createOrGetConversation stDir userAlice userAlice.uid = (.error .selfConversation, stDir) :=
  ⟨by decide, c8_amended_self_conversation stDir userAlice (by decide)⟩

/-! ## Pairing rule, failure modes, send-message postcondition -/

theorem validCombinations_iff (curRole partRole : String) :
    (([(curRole = "brand" && ["influencer", "ugc_creator"].contains partRole : Bool),
       (["influencer", "ugc_creator"].contains curRole && partRole = "brand" : Bool)].any
        (fun combo => combo)) = true) ↔
    ((curRole = "brand" ∧ (partRole = "influencer" ∨ partRole = "ugc_creator")) ∨
     ((curRole = "influencer" ∨ curRole = "ugc_creator") ∧ partRole = "brand")) := by
  simp [List.contains]

/-- Claim C2: for users A and B with A distinct from B (B present in the
directory, with a nonempty identifier as the presence precondition demands),
createOrGetConversation succeeds exactly when one side has role brand and
the other side has role influencer or ugc_creator, in either direction; all
other role combinations (brand with brand, influencer with ugc_creator, and
any further role) fail with the invalidPairing kind. -/
theorem c2_pairing_rule :
    ∀ (st : ChatState) (user : AuthUser) (participantId : String) (pd : DirUser),
      participantId ≠ "" → participantId ≠ user.uid →
      st.users.find? (fun u => u.uid = participantId) = some pd →
      (((createOrGetConversation st user participantId).1.isOk = true) ↔
        ((user.role = "brand" ∧ (pd.role = "influencer" ∨ pd.role = "ugc_creator")) ∨
         ((user.role = "influencer" ∨ user.role = "ugc_creator") ∧ pd.role = "brand"))) ∧
      (¬((user.role = "brand" ∧ (pd.role = "influencer" ∨ pd.role = "ugc_creator")) ∨
         ((user.role = "influencer" ∨ user.role = "ugc_creator") ∧ pd.role = "brand")) →
        (createOrGetConversation st user participantId).1 = .error .invalidPairing) := by
  intro st user participantId pd h1 h2 hfind
  have hiff := validCombinations_iff user.role pd.role
  unfold createOrGetConversation
  rw [if_neg h1, if_neg h2, hfind]
  dsimp only
  by_cases hp : ((user.role = "brand" ∧ (pd.role = "influencer" ∨ pd.role = "ugc_creator")) ∨
      ((user.role = "influencer" ∨ user.role = "ugc_creator") ∧ pd.role = "brand"))
  · have hb := hiff.mpr hp
    rw [hb]
    simp only [Bool.not_true]
    rw [if_neg (by simp)]
    split
    · exact ⟨iff_of_true rfl hp, fun hnp => absurd hp hnp⟩
    · exact ⟨iff_of_true rfl hp, fun hnp => absurd hp hnp⟩
  · have hb : (([(user.role = "brand" && ["influencer", "ugc_creator"].contains pd.role : Bool),
       (["influencer", "ugc_creator"].contains user.role && pd.role = "brand" : Bool)].any
        (fun combo => combo)) = false) := by
      rcases hx : ([(user.role = "brand" && ["influencer", "ugc_creator"].contains pd.role : Bool),
        (["influencer", "ugc_creator"].contains user.role && pd.role = "brand" : Bool)].any
          (fun combo => combo)) with _ | _
      · rfl
      · exact absurd (hiff.mp hx) hp
    rw [hb]
    simp only [Bool.not_false]
    rw [if_pos trivial]
    exact ⟨iff_of_false (by simp [Except.isOk, Except.toBool]) hp, fun _ => rfl⟩

theorem c2_pairing_rule_witness :
    (("bob" : String) ≠ "" ∧ ("bob" : String) ≠ userAlice.uid ∧
      stDir.users.find? (fun u => u.uid = "bob") = some dirBob) ∧
    ((((createOrGetConversation stDir userAlice "bob").1.isOk = true) ↔
        ((userAlice.role = "brand" ∧ (dirBob.role = "influencer" ∨ dirBob.role = "ugc_creator")) ∨
         ((userAlice.role = "influencer" ∨ userAlice.role = "ugc_creator") ∧ dirBob.role = "brand"))) ∧
      (¬((userAlice.role = "brand" ∧ (dirBob.role = "influencer" ∨ dirBob.role = "ugc_creator")) ∨
         ((userAlice.role = "influencer" ∨ userAlice.role = "ugc_creator") ∧ dirBob.role = "brand")) →
        (createOrGetConversation stDir userAlice "bob").1 = .error .invalidPairing)) :=
  ⟨⟨by decide, by decide, by decide⟩,
    c2_pairing_rule stDir userAlice "bob" dirBob (by decide) (by decide) (by decide)⟩

theorem string_eq_empty_of_length {s : String} (h : s.length = 0) : s = "" := by
  cases s with
  | mk l =>
    simp [String.length] at h
    simp [h]

/-- Claim C6: sendMessage from a sender who is not a participant of an
existing conversation fails with the forbidden kind and leaves the state
(and so the message store) unchanged; a missing conversation fails with
notFound, and text that is empty after trimming fails with validationError,
in each case leaving the state unchanged. -/
theorem c6_send_message_failure_modes :
    (∀ (st : ChatState) (user : AuthUser) (cid text mid : String) (conv : Conversation),
      st.conversations.find? (fun c => c.id = cid) = some conv →
      conv.participants.contains user.uid = false →
      jsTrim text ≠ "" →
      sendMessage st user cid text mid = (.error .forbidden, st)) ∧
    (∀ (st : ChatState) (user : AuthUser) (cid text mid : String),
      st.conversations.find? (fun c => c.id = cid) = none →
      jsTrim text ≠ "" →
      sendMessage st user cid text mid = (.error .notFound, st)) ∧
    (∀ (st : ChatState) (user : AuthUser) (cid text mid : String),
      jsTrim text = "" →
      sendMessage st user cid text mid = (.error .validationError, st)) := by
  refine ⟨?_, ?_, ?_⟩
  · intro st user cid text mid conv hfind hpart htrim
    have ht : ¬ text = "" := fun he => htrim (by rw [he]; rfl)
    have hl : ¬ (jsTrim text).length = 0 := fun hz => htrim (string_eq_empty_of_length hz)
    unfold sendMessage
    rw [if_neg (by simp [ht, hl]), hfind]
    dsimp only
    rw [hpart]
    simp
  · intro st user cid text mid hfind htrim
    have ht : ¬ text = "" := fun he => htrim (by rw [he]; rfl)
    have hl : ¬ (jsTrim text).length = 0 := fun hz => htrim (string_eq_empty_of_length hz)
    unfold sendMessage
    rw [if_neg (by simp [ht, hl]), hfind]
  · intro st user cid text mid htrim
    have hl : (jsTrim text).length = 0 := by rw [htrim]; rfl
    unfold sendMessage
    rw [if_pos (by simp [hl])]

theorem c6_send_message_failure_modes_witness :
    (stWithConv.conversations.find? (fun c => c.id = "alice_bob") = some convAliceBob ∧
     convAliceBob.participants.contains userEve.uid = false ∧
     jsTrim "hi" ≠ "" ∧
     sendMessage stWithConv userEve "alice_bob" "hi" "m9" = (.error .forbidden, stWithConv)) ∧
    (stWithConv.conversations.find? (fun c => c.id = "nope") = none ∧
     sendMessage stWithConv userAlice "nope" "hi" "m9" = (.error .notFound, stWithConv)) ∧
    (jsTrim "   " = "" ∧
     sendMessage stWithConv userAlice "alice_bob" "   " "m9" = (.error .validationError, stWithConv)) :=
  ⟨⟨by decide, by decide, by decide,
     c6_send_message_failure_modes.1 stWithConv userEve "alice_bob" "hi" "m9" convAliceBob
       (by decide) (by decide) (by decide)⟩,
   ⟨by decide,
     c6_send_message_failure_modes.2.1 stWithConv userAlice "nope" "hi" "m9" (by decide) (by decide)⟩,
   ⟨by decide,
     c6_send_message_failure_modes.2.2 stWithConv userAlice "alice_bob" "   " "m9" (by decide)⟩⟩

/-- Claim C1: every successful sendMessage stores exactly the content filter
applied to the trimmed raw text (the raw text itself is never persisted),
sets isFiltered exactly when the filtered text differs from the trimmed raw
text, and updates the owning conversation so that its lastMessage cache is
the stored text and its lastMessageTime is the stored message timestamp. -/
theorem c1_send_message_stores_filtered_text :
    ∀ (st : ChatState) (user : AuthUser) (cid text mid : String)
      (msg : Message) (st2 : ChatState),
      sendMessage st user cid text mid = (.ok msg, st2) →
      msg.message = filterSensitiveContent (jsTrim text) ∧
      (msg.isFiltered = true ↔ msg.message ≠ jsTrim text) ∧
      (∀ conv ∈ st2.conversations, conv.id = cid →
        conv.lastMessage = some msg.message ∧ conv.lastMessageTime = some msg.timestamp) := by
  intro st user cid text mid msg st2 h
  unfold sendMessage at h
  split at h
  · simp at h
  · split at h
    · simp at h
    · split at h
      · simp at h
      · dsimp only at h
        simp only [Prod.mk.injEq, Except.ok.injEq] at h
        obtain ⟨hmsg, hst⟩ := h
        subst hmsg
        subst hst
        refine ⟨rfl, bne_iff_ne, ?_⟩
        intro conv hmem hid
        simp only [List.mem_map] at hmem
        obtain ⟨c0, hc0, hfc⟩ := hmem
        by_cases hc : c0.id = cid
        · rw [← hfc]
          simp [hc]
        · rw [← hfc] at hid
          simp [hc] at hid

theorem c1_send_message_stores_filtered_text_witness :
    sendMessage stWithConv userAlice "alice_bob" "hello" "m1" = (.ok msgHello, stAfterHello) ∧
    (msgHello.message = filterSensitiveContent (jsTrim "hello") ∧
     (msgHello.isFiltered = true ↔ msgHello.message ≠ jsTrim "hello") ∧
     (∀ conv ∈ stAfterHello.conversations, conv.id = "alice_bob" →
       conv.lastMessage = some msgHello.message ∧ conv.lastMessageTime = some msgHello.timestamp)) :=
  ⟨by decide,
    c1_send_message_stores_filtered_text stWithConv userAlice "alice_bob" "hello" "m1"
      msgHello stAfterHello (by decide)⟩

/-! ## Idempotence of get-or-create, chronological listing -/

/-- Claim C3 (counterexample): after a first successful
createOrGetConversation call between the brand alice and the influencer bob,
changing the directory role of bob to brand makes the second call with the
same pair fail with invalidPairing instead of returning the stored
conversation record: the handler re-validates roles against the directory
before it checks for an existing conversation. -/
theorem c3_counterexample_roles_revalidated :
    createOrGetConversation stDir userAlice "bob" = (.ok ("alice_bob", convAliceBob), stDirAfter) ∧
    stMutated.conversations = [convAliceBob] ∧
    createOrGetConversation stMutated userAlice "bob" = (.error .invalidPairing, stMutated) := by
  decide

/-- Claim C3 (amended): calling createOrGetConversation a second time with
the same pair of users returns the first call record unchanged and creates
no duplicate conversation, provided the directory data is unchanged between
the calls; the participant role IS re-validated on every call (before the
existence check), so changed directory data can make the second call fail. -/
theorem c3_amended_idempotent_unchanged_directory :
    ∀ (st : ChatState) (user : AuthUser) (participantId cid : String)
      (conv : Conversation) (st1 : ChatState),
      createOrGetConversation st user participantId = (.ok (cid, conv), st1) →
      createOrGetConversation st1 user participantId = (.ok (cid, conv), st1) := by
  intro st user participantId cid conv st1 h
  unfold createOrGetConversation at h ⊢
  split at h
  · simp at h
  · rename_i hne1
    rw [if_neg hne1]
    split at h
    · simp at h
    · rename_i hne2
      rw [if_neg hne2]
      split at h
      · simp at h
      · rename_i pd heq
        dsimp only at h
        split at h
        · simp at h
        · rename_i hvalid
          split at h
          · rename_i row heq2
            simp only [Prod.mk.injEq, Except.ok.injEq] at h
            obtain ⟨⟨hcid, hrow⟩, hst⟩ := h
            subst hcid
            subst hrow
            subst hst
            rw [heq]
            dsimp only
            rw [if_neg hvalid, heq2]
          · rename_i heq2
            simp only [Prod.mk.injEq, Except.ok.injEq] at h
            obtain ⟨⟨hcid, hconv⟩, hst⟩ := h
            subst hcid
            subst hconv
            subst hst
            rw [show ({ st with conversations := st.conversations ++ [_] } : ChatState).users = st.users from rfl]
            rw [heq]
            dsimp only
            rw [if_neg hvalid]
            rw [List.find?_append, heq2]
            simp [List.find?]

theorem c3_amended_idempotent_unchanged_directory_witness :
    createOrGetConversation stDir userAlice "bob" = (.ok ("alice_bob", convAliceBob), stDirAfter) ∧
    createOrGetConversation stDirAfter userAlice "bob" = (.ok ("alice_bob", convAliceBob), stDirAfter) :=
  ⟨by decide,
    c3_amended_idempotent_unchanged_directory stDir userAlice "bob" "alice_bob"
      convAliceBob stDirAfter (by decide)⟩

theorem insertDescByTime_mem : ∀ (m y : Message) (l : List Message),
    y ∈ insertDescByTime m l → y = m ∨ y ∈ l := by
  intro m y l
  induction l with
  | nil =>
    intro h
    simp [insertDescByTime] at h
    exact Or.inl h
  | cons x xs ih =>
    intro h
    unfold insertDescByTime at h
    split at h
    · simp only [List.mem_cons] at h
      rcases h with h | h
      · exact Or.inl h
      · exact Or.inr (List.mem_cons.mpr h)
    · simp only [List.mem_cons] at h
      rcases h with h | h
      · exact Or.inr (List.mem_cons.mpr (Or.inl h))
      · rcases ih h with h2 | h2
        · exact Or.inl h2
        · exact Or.inr (List.mem_cons.mpr (Or.inr h2))

theorem insertDescByTime_pairwise : ∀ (m : Message) (l : List Message),
    l.Pairwise (fun a b => b.timestamp ≤ a.timestamp) →
    (insertDescByTime m l).Pairwise (fun a b => b.timestamp ≤ a.timestamp) := by
  intro m l
  induction l with
  | nil =>
    intro _
    simp [insertDescByTime]
  | cons x xs ih =>
    intro hp
    rw [List.pairwise_cons] at hp
    obtain ⟨hx, hxs⟩ := hp
    unfold insertDescByTime
    split
    · rename_i hle
      refine List.Pairwise.cons ?_ (List.Pairwise.cons hx hxs)
      intro y hy
      rcases List.mem_cons.mp hy with h | h
      · rw [h]; exact hle
      · exact le_trans (hx y h) hle
    · rename_i hgt
      refine List.Pairwise.cons ?_ (ih hxs)
      intro y hy
      rcases insertDescByTime_mem m y xs hy with h | h
      · rw [h]; exact le_of_lt (not_le.mp hgt)
      · exact hx y h

theorem sortDescByTime_pairwise : ∀ l : List Message,
    (sortDescByTime l).Pairwise (fun a b => b.timestamp ≤ a.timestamp) := by
  intro l
  induction l with
  | nil => simp [sortDescByTime]
  | cons x xs ih =>
    show (insertDescByTime x (xs.foldr insertDescByTime [])).Pairwise _
    exact insertDescByTime_pairwise x _ ih

/-- Claim C5: for every page window a participant requests, listMessages
returns the messages in non-decreasing timestamp order: the rows are
selected newest first (ORDER BY timestamp DESC with LIMIT) and reversed
before being returned. -/
theorem c5_list_messages_chronological :
    ∀ (st : ChatState) (user : AuthUser) (cid : String) (page limit : Nat)
      (msgs : List Message) (conv : Conversation),
      listMessages st user cid page limit = .ok (msgs, conv) →
      msgs.Pairwise (fun m1 m2 => m1.timestamp ≤ m2.timestamp) := by
  intro st user cid page limit msgs conv h
  unfold listMessages at h
  split at h
  · simp at h
  · split at h
    · simp at h
    · dsimp only at h
      simp only [Except.ok.injEq, Prod.mk.injEq] at h
      obtain ⟨hm, hc⟩ := h
      rw [← hm]
      rw [List.pairwise_reverse]
      exact (sortDescByTime_pairwise _).sublist (List.take_sublist _ _)

theorem c5_list_messages_chronological_witness :
    listMessages stMsgs userAlice "alice_bob" 1 50 = .ok ([msgLater, msgEarlier], convAliceBob) ∧
    ([msgLater, msgEarlier] : List Message).Pairwise (fun m1 m2 => m1.timestamp ≤ m2.timestamp) :=
  ⟨by decide,
    c5_list_messages_chronological stMsgs userAlice "alice_bob" 1 50
      [msgLater, msgEarlier] convAliceBob (by decide)⟩

/-! ## Behaviour of the filter on fully masked text -/

theorem run_email_star (prev : Option Char) (rest : List Char) :
    run emailRE prev ('*' :: rest) = [] := by
  have h1 : emailLocalClass '*' = false := by decide
  simp [emailRE, run, descRange, prevAfter, List.takeWhile_cons, h1]
  intros
  omega

theorem run_phone_star (prev : Option Char) (rest : List Char) :
    run phoneRE prev ('*' :: rest) = [] := by
  have h1 : isDigitCh '*' = false := by decide
  simp [phoneRE, opt, run, descRange, prevAfter, List.takeWhile_cons, h1]

theorem run_whatsapp_star (prev : Option Char) (rest : List Char) :
    run whatsappRE prev ('*' :: rest) = [] := by
  have hw : ('*'.toLower == 'w') = false := by decide
  have ht : ('*'.toLower == 't') = false := by decide
  have h1 : "whatsapp".data = ['w', 'h', 'a', 't', 's', 'a', 'p', 'p'] := rfl
  have h2 : "wa.me".data = ['w', 'a', '.', 'm', 'e'] := rfl
  have h3 : "t.me".data = ['t', '.', 'm', 'e'] := rfl
  have h4 : "telegram".data = ['t', 'e', 'l', 'e', 'g', 'r', 'a', 'm'] := rfl
  simp [whatsappRE, h1, h2, h3, h4, litCI, ciChr, run, hw, ht]

theorem run_social_star (prev : Option Char) (rest : List Char) :
    run socialRE prev ('*' :: rest) = [] := by
  simp [socialRE, run]

theorem scanFuel_star_id : ∀ (fuel : Nat) (r : RE),
    (∀ (prev2 : Option Char) (rest : List Char), run r prev2 ('*' :: rest) = []) →
    ∀ (prev : Option Char) (s : List Char), (∀ c ∈ s, c = '*') →
    scanFuel fuel r prev s = s := by
  intro fuel
  induction fuel with
  | zero => intro r hr prev s hs; rfl
  | succ n ih =>
    intro r hr prev s hs
    cases s with
    | nil => rfl
    | cons c rest =>
      have hc : c = '*' := hs c (List.mem_cons_self c rest)
      subst hc
      have hm : matchAt r prev ('*' :: rest) = none := by rw [matchAt, hr]; rfl
      simp only [scanFuel, hm]
      rw [ih r hr (some '*') rest (fun c h => hs c (List.mem_cons_of_mem _ h))]

theorem filter_all_star_id : ∀ s : String, (∀ c ∈ s.data, c = '*') →
    filterSensitiveContent s = s := by
  intro s hs
  unfold filterSensitiveContent jsReplaceAll
  dsimp only
  rw [scanFuel_star_id _ emailRE run_email_star none s.data hs]
  rw [scanFuel_star_id _ phoneRE run_phone_star none s.data hs]
  rw [scanFuel_star_id _ whatsappRE run_whatsapp_star none s.data hs]
  rw [scanFuel_star_id _ socialRE run_social_star none s.data hs]

/-- Claim C9 (counterexample): the content filter is not idempotent on
filter outputs in general: the input "x@-a.cc555" is filtered to
"x@-a.cc*****" (the digit run is masked, blocking the email match through
the word boundary), and filtering that output again masks the now-exposed
email shape, giving "**********", a different text. -/
theorem c9_counterexample_not_idempotent :
    filterSensitiveContent "x@-a.cc555" = "x@-a.cc*****" ∧
    filterSensitiveContent (filterSensitiveContent "x@-a.cc555") = "**********" ∧
    filterSensitiveContent (filterSensitiveContent "x@-a.cc555") ≠
      filterSensitiveContent "x@-a.cc555" := by decide

/-- Claim C9 (amended): the content filter is idempotent on already-filtered
text consisting only of mask tokens: every string of asterisks is a fixed
point of the filter, so filtering twice equals filtering once there; on
arbitrary filter outputs idempotence fails (see the counterexample). -/
theorem c9_amended_idempotent_on_masked :
    ∀ s : String, (∀ c ∈ s.data, c = '*') →
      filterSensitiveContent (filterSensitiveContent s) = filterSensitiveContent s := by
  intro s hs
  have h := filter_all_star_id s hs
  rw [h]
  exact h

theorem c9_amended_idempotent_on_masked_witness :
    (∀ c ∈ ("**********" : String).data, c = '*') ∧
    filterSensitiveContent (filterSensitiveContent "**********") =
      filterSensitiveContent "**********" :=
  ⟨by decide, c9_amended_idempotent_on_masked "**********" (by decide)⟩

/-! ## The filter output never contains a messaging-app keyword -/

theorem ciStarts_transfer : ∀ (fuel : Nat) (r : RE) (p : List Char), '*' ∉ p →
    ∀ (prev : Option Char) (s : List Char),
    ciStarts p (scanFuel fuel r prev s) = true → ciStarts p s = true := by
  intro fuel
  induction fuel with
  | zero => intro r p hp prev s h; exact h
  | succ n ih =>
    intro r p hp prev s h
    cases s with
    | nil => exact h
    | cons c rest =>
      simp only [scanFuel] at h
      split at h
      · rcases p with _ | ⟨pc, ps⟩
        · rfl
        · exfalso
          have hl : '*'.toLower = '*' := rfl
          simp only [maskChars, List.cons_append, ciStarts, hl, Bool.and_eq_true] at h
          exact hp (List.mem_cons.mpr (Or.inl (beq_iff_eq.mp h.1)))
      · rcases p with _ | ⟨pc, ps⟩
        · rfl
        · simp only [ciStarts, Bool.and_eq_true] at h ⊢
          obtain ⟨h1, h2⟩ := h
          exact ⟨h1, ih r ps (fun hm => hp (List.mem_cons_of_mem _ hm)) (some c) rest h2⟩

theorem containsCIL_of_drop : ∀ (p t : List Char) (k : Nat),
    containsCIL p (t.drop k) = true → containsCIL p t = true := by
  intro p t
  induction t with
  | nil => intro k h; simpa using h
  | cons c cs ih =>
    intro k h
    cases k with
    | zero => exact h
    | succ k2 =>
      have h2 := ih k2 h
      show (ciStarts p (c :: cs) || containsCIL p cs) = true
      rw [h2]
      simp

theorem containsCIL_cons_star (p : List Char) (hp : '*' ∉ p) (hne : p ≠ []) (t : List Char) :
    containsCIL p ('*' :: t) = containsCIL p t := by
  show (ciStarts p ('*' :: t) || containsCIL p t) = containsCIL p t
  rcases p with _ | ⟨pc, ps⟩
  · exact absurd rfl hne
  · have hpc : ('*'.toLower == pc) = false := by
      have hl : '*'.toLower = '*' := rfl
      rw [hl]
      exact beq_eq_false_iff_ne.mpr (fun he => hp (List.mem_cons.mpr (Or.inl he)))
    show ((('*'.toLower == pc) && ciStarts ps t) || containsCIL (pc :: ps) t) = containsCIL (pc :: ps) t
    rw [hpc, Bool.false_and, Bool.false_or]

theorem containsCIL_mask_append (p : List Char) (hp : '*' ∉ p) (hne : p ≠ []) (t : List Char) :
    containsCIL p (maskChars ++ t) = containsCIL p t := by
  show containsCIL p ('*' :: ('*' :: ('*' :: ('*' :: ('*' :: t))))) = containsCIL p t
  rw [containsCIL_cons_star p hp hne, containsCIL_cons_star p hp hne,
    containsCIL_cons_star p hp hne, containsCIL_cons_star p hp hne,
    containsCIL_cons_star p hp hne]

theorem run_litCI_eq : ∀ (k : List Char) (prev : Option Char) (s : List Char),
    run (litCI k) prev s = if ciStarts k s then [k.length] else [] := by
  intro k
  induction k with
  | nil => intro prev s; simp [litCI, run, ciStarts]
  | cons c cs ih =>
    intro prev s
    cases s with
    | nil => simp [litCI, run, ciChr, ciStarts]
    | cons d ds =>
      by_cases hd : (d.toLower == c) = true
      · simp [litCI, run, ciChr, hd, ih, prevAfter, ciStarts]
        split <;> simp [Nat.add_comm]
      · have hd2 : (d.toLower == c) = false := Bool.eq_false_iff.mpr hd
        simp [litCI, run, ciChr, hd2, ciStarts]

theorem run_whatsapp_eq (prev : Option Char) (s : List Char) :
    run whatsappRE prev s =
      (if ciStarts "whatsapp".data s then [8] else []) ++
      ((if ciStarts "wa.me".data s then [5] else []) ++
       ((if ciStarts "t.me".data s then [4] else []) ++
        (if ciStarts "telegram".data s then [8] else []))) := by
  have l1 : ("whatsapp".data).length = 8 := rfl
  have l2 : ("wa.me".data).length = 5 := rfl
  have l3 : ("t.me".data).length = 4 := rfl
  have l4 : ("telegram".data).length = 8 := rfl
  have halt : ∀ a b : RE, run (.alt a b) prev s = run a prev s ++ run b prev s := fun a b => rfl
  show run (.alt (litCI "whatsapp".data) (.alt (litCI "wa.me".data)
      (.alt (litCI "t.me".data) (litCI "telegram".data)))) prev s = _
  rw [halt, halt, halt, run_litCI_eq, run_litCI_eq, run_litCI_eq, run_litCI_eq, l1, l2, l3, l4]

theorem matchAt_whatsapp_pos (prev : Option Char) (s : List Char) (p : List Char)
    (hmem : p ∈ waKeywordChars) (hs : ciStarts p s = true) :
    ∃ n : Nat, matchAt whatsappRE prev s = some (n + 1) := by
  rw [matchAt, run_whatsapp_eq]
  simp only [waKeywordChars, List.mem_cons, List.not_mem_nil, or_false] at hmem
  rcases hmem with h | h | h | h
  · subst h
    have hs2 : ciStarts "whatsapp".data s = true := hs
    rw [hs2]
    exact ⟨7, rfl⟩
  · subst h
    have hs2 : ciStarts "wa.me".data s = true := hs
    rw [hs2]
    by_cases h1 : ciStarts "whatsapp".data s = true
    · rw [h1]; exact ⟨7, rfl⟩
    · rw [Bool.eq_false_iff.mpr h1]; exact ⟨4, rfl⟩
  · subst h
    have hs2 : ciStarts "t.me".data s = true := hs
    rw [hs2]
    by_cases h1 : ciStarts "whatsapp".data s = true
    · rw [h1]; exact ⟨7, rfl⟩
    · rw [Bool.eq_false_iff.mpr h1]
      by_cases h2 : ciStarts "wa.me".data s = true
      · rw [h2]; exact ⟨4, rfl⟩
      · rw [Bool.eq_false_iff.mpr h2]; exact ⟨3, rfl⟩
  · subst h
    have hs2 : ciStarts "telegram".data s = true := hs
    rw [hs2]
    by_cases h1 : ciStarts "whatsapp".data s = true
    · rw [h1]; exact ⟨7, rfl⟩
    · rw [Bool.eq_false_iff.mpr h1]
      by_cases h2 : ciStarts "wa.me".data s = true
      · rw [h2]; exact ⟨4, rfl⟩
      · rw [Bool.eq_false_iff.mpr h2]
        by_cases h3 : ciStarts "t.me".data s = true
        · rw [h3]; exact ⟨3, rfl⟩
        · rw [Bool.eq_false_iff.mpr h3]; exact ⟨7, rfl⟩

theorem containsCIL_whatsapp_scan : ∀ (fuel : Nat) (p : List Char), p ∈ waKeywordChars →
    ∀ (prev : Option Char) (s : List Char), s.length ≤ fuel →
    containsCIL p (scanFuel fuel whatsappRE prev s) = false := by
  have hstar : ∀ p ∈ waKeywordChars, '*' ∉ p := by decide
  have hne : ∀ p ∈ waKeywordChars, p ≠ [] := by decide
  intro fuel
  induction fuel with
  | zero =>
    intro p hp prev s hlen
    have hnil : s = [] := List.length_eq_zero.mp (Nat.le_zero.mp hlen)
    subst hnil
    rcases p with _ | ⟨pc, ps⟩
    · exact absurd rfl (hne [] hp)
    · rfl
  | succ n ih =>
    intro p hp prev s hlen
    cases s with
    | nil =>
      rcases p with _ | ⟨pc, ps⟩
      · exact absurd rfl (hne [] hp)
      · rfl
    | cons c rest =>
      have hlen2 : rest.length ≤ n := by
        simp only [List.length_cons] at hlen
        omega
      simp only [scanFuel]
      split
      · rename_i m heq
        rw [containsCIL_mask_append p (hstar p hp) (hne p hp)]
        apply ih p hp
        rw [List.length_drop]
        omega
      · rename_i hnomatch
        have hrest : containsCIL p (scanFuel n whatsappRE (some c) rest) = false :=
          ih p hp (some c) rest hlen2
        show (ciStarts p (c :: scanFuel n whatsappRE (some c) rest) ||
          containsCIL p (scanFuel n whatsappRE (some c) rest)) = false
        rw [hrest, Bool.or_false]
        rcases hx : ciStarts p (c :: scanFuel n whatsappRE (some c) rest) with _ | _
        · rfl
        · exfalso
          rcases p with _ | ⟨pc, ps⟩
          · exact (hne [] hp) rfl
          · have hx2 : ((c.toLower == pc) && ciStarts ps (scanFuel n whatsappRE (some c) rest)) = true := hx
            rw [Bool.and_eq_true] at hx2
            obtain ⟨hx3, hx4⟩ := hx2
            have hps : '*' ∉ ps := fun hm => (hstar _ hp) (List.mem_cons_of_mem _ hm)
            have htail : ciStarts ps rest = true :=
              ciStarts_transfer n whatsappRE ps hps (some c) rest hx4
            have hfull : ciStarts (pc :: ps) (c :: rest) = true := by
              show ((c.toLower == pc) && ciStarts ps rest) = true
              rw [hx3, htail]
              rfl
            obtain ⟨m, hm⟩ := matchAt_whatsapp_pos prev (c :: rest) (pc :: ps) hp hfull
            exact hnomatch m hm

theorem containsCIL_scan_preserve : ∀ (fuel : Nat) (r : RE) (p : List Char), '*' ∉ p → p ≠ [] →
    ∀ (prev : Option Char) (s : List Char),
    containsCIL p s = false → containsCIL p (scanFuel fuel r prev s) = false := by
  intro fuel
  induction fuel with
  | zero => intro r p hp hne prev s h; exact h
  | succ n ih =>
    intro r p hp hne prev s h
    cases s with
    | nil => exact h
    | cons c rest =>
      have h' : (ciStarts p (c :: rest) || containsCIL p rest) = false := h
      rw [Bool.or_eq_false_iff] at h'
      obtain ⟨hs1, hs2⟩ := h'
      simp only [scanFuel]
      split
      · rename_i m heq
        rw [containsCIL_mask_append p hp hne]
        apply ih r p hp hne
        rcases hx : containsCIL p (rest.drop m) with _ | _
        · rfl
        · have hcontra := containsCIL_of_drop p rest m hx
          rw [hs2] at hcontra
          exact absurd hcontra (by decide)
      · rename_i hnomatch
        have hrest := ih r p hp hne (some c) rest hs2
        show (ciStarts p (c :: scanFuel n r (some c) rest) ||
          containsCIL p (scanFuel n r (some c) rest)) = false
        rw [hrest, Bool.or_false]
        rcases p with _ | ⟨pc, ps⟩
        · exact absurd rfl hne
        · rcases hx : ciStarts (pc :: ps) (c :: scanFuel n r (some c) rest) with _ | _
          · rfl
          · exfalso
            have hx2 : ((c.toLower == pc) && ciStarts ps (scanFuel n r (some c) rest)) = true := hx
            rw [Bool.and_eq_true] at hx2
            obtain ⟨hx3, hx4⟩ := hx2
            have hps : '*' ∉ ps := fun hm => hp (List.mem_cons_of_mem _ hm)
            have htail : ciStarts ps rest = true :=
              ciStarts_transfer n r ps hps (some c) rest hx4
            have hfull : ciStarts (pc :: ps) (c :: rest) = true := by
              show ((c.toLower == pc) && ciStarts ps rest) = true
              rw [hx3, htail]
              rfl
            rw [hfull] at hs1
            exact absurd hs1 (by decide)

/-- Claim C10: the output of the content filter never contains "whatsapp",
"wa.me", "t.me" or "telegram" in any letter case: the case-insensitive
global replacement masks every occurrence present before that pass, and
since the mask consists only of asterisks (which occur in no keyword and
match no pattern character), the final handle-masking pass cannot assemble a
new occurrence across a mask boundary. -/
theorem c10_filter_output_has_no_messaging_keyword :
    ∀ s : String,
      containsCI "whatsapp" (filterSensitiveContent s) = false ∧
      containsCI "wa.me" (filterSensitiveContent s) = false ∧
      containsCI "t.me" (filterSensitiveContent s) = false ∧
      containsCI "telegram" (filterSensitiveContent s) = false := by
  have key : ∀ p ∈ waKeywordChars, ∀ s : String,
      containsCIL p (filterSensitiveContent s).data = false := by
    intro p hp s
    have hstar : '*' ∉ p := (show ∀ q ∈ waKeywordChars, '*' ∉ q by decide) p hp
    have hne : p ≠ [] := (show ∀ q ∈ waKeywordChars, q ≠ [] by decide) p hp
    show containsCIL p (jsReplaceAll socialRE (jsReplaceAll whatsappRE
      (jsReplaceAll phoneRE (jsReplaceAll emailRE s.data)))) = false
    unfold jsReplaceAll
    apply containsCIL_scan_preserve _ socialRE p hstar hne
    exact containsCIL_whatsapp_scan _ p hp none _ le_rfl
  intro s
  refine ⟨key _ ?_ s, key _ ?_ s, key _ ?_ s, key _ ?_ s⟩
  · exact List.mem_cons_self _ _
  · exact List.mem_cons_of_mem _ (List.mem_cons_self _ _)
  · exact List.mem_cons_of_mem _ (List.mem_cons_of_mem _ (List.mem_cons_self _ _))
  · exact List.mem_cons_of_mem _ (List.mem_cons_of_mem _ (List.mem_cons_of_mem _ (List.mem_cons_self _ _)))

end Buzzaz
